import Mathlib

/-!
Shallow embedding of the product-verification matching engine of the
`verify-product` request handler (`src/app/api/verify-product/route.ts`),
together with its rate limiter, points bookkeeping and error handling.

Strings are modelled as `List Char`; the alert store as a `List NafdacAlert`;
the ORM `findMany` calls as filter + sort-by-`scrapedAt`-descending + `take`;
the handler as a pure function threading an explicit database state, with
fault-injection flags standing for the operations that can throw.
-/

namespace FakeDetector

abbrev Str := List Char

/-- JavaScript `toLowerCase` on our character-list strings. -/
def toLowerStr (s : Str) : Str := s.map Char.toLower

/-- JavaScript `toUpperCase`. -/
def toUpperStr (s : Str) : Str := s.map Char.toUpper

/-- The whitespace characters that occur in the handler's template literal;
`String.prototype.trim` removes them from both ends. -/
def isWs (c : Char) : Bool := c = ' ' || c = '\n' || c = '\t' || c = '\r'

/-- JavaScript `trim`: drop whitespace from both ends. -/
def jsTrim (s : Str) : Str :=
  ((s.dropWhile isWs).reverse.dropWhile isWs).reverse

/-- JavaScript `s.split(' ')[0]`: everything before the first space. -/
def firstSpaceToken (s : Str) : Str := s.takeWhile (fun c => c ≠ ' ')

/-- Substring test (JavaScript / Prisma `contains`). -/
def strContains (hay needle : Str) : Bool :=
  match hay with
  | [] => needle.isEmpty
  | c :: t => needle.isPrefixOf (c :: t) || strContains t needle

/-- One row of the `nafdacAlert` table, restricted to the columns the
handler `select`s. -/
structure NafdacAlert where
  id : Nat
  title : Str
  cleanContent : Str
  url : Str
  batchNumbers : List Str
  manufacturer : Str
  alertType : Str
  severity : Str
  scrapedAt : Nat
  active : Bool
deriving DecidableEq

/-- `orderBy: { scrapedAt: 'desc' }`: `a` may come before `b` when `b` was
scraped no later than `a`. -/
def scrapedDesc (a b : NafdacAlert) : Prop := b.scrapedAt ≤ a.scrapedAt

instance : DecidableRel scrapedDesc := fun a b => Nat.decLe _ _

instance : IsTotal NafdacAlert scrapedDesc :=
  ⟨fun a b => Nat.le_total b.scrapedAt a.scrapedAt⟩

instance : IsTrans NafdacAlert scrapedDesc :=
  ⟨fun _ _ _ hab hbc => Nat.le_trans hbc hab⟩

/-- Model of `prisma.nafdacAlert.findMany({ where, orderBy: scrapedAt desc,
take: n })` over an explicit store. -/
def findManyAlerts (store : List NafdacAlert) (pred : NafdacAlert → Bool)
    (n : Nat) : List NafdacAlert :=
  (List.insertionSort scrapedDesc (store.filter pred)).take n

/-- The validated, sanitized request body as destructured by the handler.
JavaScript treats a missing and an empty `userBatchNumber` identically
(both falsy, both rendered as `''` in the template literal), so `[]`
models both. -/
structure ReqBody where
  productName : Str
  productDescription : Str
  userBatchNumber : Str
  images : List Str
deriving DecidableEq

/-- Strategy 1 `where` clause: `active: true, batchNumbers: { has:
userBatchNumber.toUpperCase() }`. -/
def batchPred (ub : Str) (a : NafdacAlert) : Bool :=
  a.active && a.batchNumbers.contains (toUpperStr ub)

/-- Strategy 1: direct batch-number match, guarded by `if (userBatchNumber)`. -/
def batchMatchesOf (store : List NafdacAlert) (ub : Str) : List NafdacAlert :=
  if ub ≠ [] then findManyAlerts store (batchPred ub) 5 else []

/-- Strategy 2 `where` clause: `title: { contains:
productName.toLowerCase(), mode: 'insensitive' }` (the insensitive mode
lowercases both sides). -/
def titlePred (pn : Str) (a : NafdacAlert) : Bool :=
  a.active && strContains (toLowerStr a.title) (toLowerStr (toLowerStr pn))

/-- Strategy 2: product name/title match, guarded by
`if (productName && productName.length > 3)`. -/
def productMatchesOf (store : List NafdacAlert) (pn : Str) : List NafdacAlert :=
  if pn ≠ [] ∧ 3 < pn.length then findManyAlerts store (titlePred pn) 5 else []

/-- The leading padding of the `searchText` template literal:
a newline and six spaces. -/
def pad1 : Str := '\n' :: List.replicate 6 ' '

/-- The trailing padding of the `searchText` template literal:
a newline and four spaces. -/
def pad2 : Str := '\n' :: List.replicate 4 ' '

/-- `searchText`: the template literal joining the four free-text
attributes, then `.toLowerCase().trim()`. -/
def searchTextOf (pn desc ub ocr : Str) : Str :=
  jsTrim (toLowerStr
    (pad1 ++ pn ++ [' '] ++ desc ++ [' '] ++ ub ++ [' '] ++ ocr ++ pad2))

/-- Strategy 3 `where` clause: `cleanContent: { contains:
searchText.split(' ')[0]?.toLowerCase(), mode: 'insensitive' }`. -/
def contentPred (tok : Str) (a : NafdacAlert) : Bool :=
  a.active && strContains (toLowerStr a.cleanContent) (toLowerStr tok)

/-- Strategy 3: broad content search, guarded by
`if (searchText && searchText.length > 5)`. -/
def contentMatchesOf (store : List NafdacAlert) (st : Str) : List NafdacAlert :=
  if st ≠ [] ∧ 5 < st.length then
    findManyAlerts store (contentPred (toLowerStr (firstSpaceToken st))) 5
  else []

/-- `const allMatches = [...batchMatches, ...productMatches, ...contentMatches]`. -/
def allMatchesOf (store : List NafdacAlert) (b : ReqBody) (ocr : Str) :
    List NafdacAlert :=
  batchMatchesOf store b.userBatchNumber ++
    productMatchesOf store b.productName ++
    contentMatchesOf store
      (searchTextOf b.productName b.productDescription b.userBatchNumber ocr)

/-- The body of `allMatches.filter((alert, index, self) => index ===
self.findIndex(a => a.id === alert.id))`, with the element/index pairs
made explicit. -/
def dedupAux (self : List NafdacAlert) :
    List (Nat × NafdacAlert) → List NafdacAlert
  | [] => []
  | (i, a) :: rest =>
    if self.findIdx (fun b => b.id == a.id) = i then a :: dedupAux self rest
    else dedupAux self rest

/-- `allMatches.filter((alert, index, self) => index === self.findIndex(a =>
a.id === alert.id))`: keep an element exactly when its index is the first
index carrying its `id`. -/
def dedupById (all : List NafdacAlert) : List NafdacAlert :=
  dedupAux all all.enum

/-- Reference first-occurrence filter: keep each element whose `id` has not
been seen before, threading the set of seen ids. -/
def keepIf (seen : List Nat) : List NafdacAlert → List NafdacAlert
  | [] => []
  | a :: t => if a.id ∈ seen then keepIf seen t else a :: keepIf (a.id :: seen) t

/-- `const matchingAlerts = allMatches.filter(...).slice(0, 10)`. -/
def matchingAlertsOf (store : List NafdacAlert) (b : ReqBody) (ocr : Str) :
    List NafdacAlert :=
  (dedupById (allMatchesOf store b ocr)).take 10

def defaultSourceUrl : Str :=
  "https://nafdac.gov.ng/category/recalls-and-alerts/".data

def noAlertStr : Str := "No Alert".data

/-- The `result` object assembled by the decision logic (the fields the
claims are about). -/
structure DecisionResult where
  isCounterfeit : Bool
  confidence : Nat
  alertType : Str
  batchNumber : Option Str
  sourceUrl : Str
deriving DecidableEq

/-- The decision logic: `if (matchingAlerts.length > 0)` set counterfeit with
`confidence = Math.min(95, 70 + matchingAlerts.length * 5)`, else safe with
`confidence = 100`.  `batchNumbers?.join(', ') || null` maps an empty join
to `null`. -/
def decisionOf : List NafdacAlert → DecisionResult
  | [] =>
    { isCounterfeit := false, confidence := 100, alertType := noAlertStr,
      batchNumber := none, sourceUrl := defaultSourceUrl }
  | a :: rest =>
    { isCounterfeit := true,
      confidence := min 95 (70 + (rest.length + 1) * 5),
      alertType := a.alertType,
      batchNumber :=
        if List.intercalate ", ".data a.batchNumbers = [] then none
        else some (List.intercalate ", ".data a.batchNumbers),
      sourceUrl := a.url }

/-- Result of `nafdacService.ensembleAnalysis` (external service, only its
`confidence` and `isCounterfeit` fields are read). -/
structure EnsembleOut where
  confidence : Nat
  isCounterfeit : Bool
deriving DecidableEq

/-- STAGE 3 edge-case validation: inside `10 < confidence < 70`, an
ensemble verdict that is confidently legitimate forces `confidence := 0`
when the match confidence is below 40. -/
def stage3 (ens : EnsembleOut) (r : DecisionResult) : DecisionResult :=
  if 10 < r.confidence ∧ r.confidence < 70 then
    if 75 < ens.confidence ∧ ens.isCounterfeit = false then
      if r.confidence < 40 then { r with confidence := 0 } else r
    else r
  else r

/-- One entry of the in-memory `rateLimitStore`. -/
structure RateEntry where
  count : Nat
  resetTime : Nat
deriving DecidableEq

def RATE_LIMIT_WINDOW : Nat := 60 * 1000

def RATE_LIMIT_MAX_REQUESTS : Nat := 10

/-- `checkRateLimit`: returns whether the request is allowed together with
the updated store entry for this IP. -/
def checkRateLimit (now : Nat) (userLimit : Option RateEntry) :
    Bool × Option RateEntry :=
  match userLimit with
  | none => (true, some ⟨1, now + RATE_LIMIT_WINDOW⟩)
  | some u =>
    if u.resetTime < now then (true, some ⟨1, now + RATE_LIMIT_WINDOW⟩)
    else if RATE_LIMIT_MAX_REQUESTS ≤ u.count then (false, some u)
    else (true, some ⟨u.count + 1, u.resetTime⟩)

/-- Repeated `checkRateLimit` calls for one IP at the given timestamps,
returning the per-request verdicts and the final store entry. -/
def runRateLimit (e : Option RateEntry) : List Nat → List Bool × Option RateEntry
  | [] => ([], e)
  | t :: ts =>
    let step := checkRateLimit t e
    let rest := runRateLimit step.2 ts
    (step.1 :: rest.1, rest.2)

/-- The user row the handler reads (`select: { pointsBalance, email }`);
only the balance matters to the claims. -/
structure UserRow where
  pointsBalance : Int
deriving DecidableEq

/-- The authenticated session (`auth()` result). -/
structure SessionInfo where
  userId : Nat
  email : Option Str
deriving DecidableEq

/-- The slice of database state the handler writes: the caller's user row,
and the number of `productCheck` and `checkResult` rows it has created. -/
structure Db where
  user : Option UserRow
  productChecks : Nat
  checkResults : Nat
deriving DecidableEq

/-- Fault-injection flags for the operations inside the handler that can
throw past the inner try/catch blocks. -/
structure Faults where
  authThrows : Bool
  userDbThrows : Bool
  ocrFails : Bool
  ensembleThrows : Bool
  decrementThrows : Bool
  createCheckThrows : Bool
  createResultThrows : Bool
deriving DecidableEq

/-- Request-independent environment: current time, the alert store, the OCR
service output and the ensemble service output. -/
structure Env where
  now : Nat
  store : List NafdacAlert
  ocrText : Str
  ensemble : EnsembleOut
deriving DecidableEq

/-- `ocrText` as used by the search: empty when OCR extraction failed. -/
def ocrEffective (f : Faults) (env : Env) : Str :=
  if f.ocrFails then [] else env.ocrText

def tooManyRequestsMsg : Str := "Too many requests".data
def authRequiredMsg : Str := "Authentication required".data
def insufficientPointsMsg : Str := "Insufficient points".data
def serviceUnavailableMsg : Str := "Service temporarily unavailable".data
def missingInfoMsg : Str :=
  "Missing product information - name and description required".data
def verificationFailedMsg : Str := "Verification failed".data
def requestTimeoutMsg : Str := "Request timeout".data
def databaseErrorMsg : Str := "Database error".data

/-- A rendered response: an error response with its HTTP status, the
legitimate response of the `confidence === 0` branch, or the general
response carrying the decision `result`. -/
inductive Response where
  | error (status : Nat) (errMsg : Str)
  | safeVerdict (newBalance : Int)
  | verdict (r : DecisionResult) (newBalance : Int)
deriving DecidableEq

def Response.statusOf : Response → Nat
  | .error s _ => s
  | _ => 200

def Response.isCounterfeitOut : Response → Option Bool
  | .error _ _ => none
  | .safeVerdict _ => some false
  | .verdict r _ => some r.isCounterfeit

def Response.confidenceOut : Response → Option Nat
  | .error _ _ => none
  | .safeVerdict _ => some 0
  | .verdict r _ => some r.confidence

def Response.newBalanceOut : Response → Option Int
  | .error _ _ => none
  | .safeVerdict nb => some nb
  | .verdict _ nb => some nb

/-- STEP 4 user fetch with the create-on-missing fallback: a missing user
with a session email is created with the default 5 points. -/
def effectiveUser (s : SessionInfo) (db : Db) : Option UserRow × Db :=
  match db.user with
  | some u => (some u, db)
  | none =>
    match s.email with
    | some _ => (some ⟨5⟩, { db with user := some ⟨5⟩ })
    | none => (none, db)

/-- The verification tail of the handler, once the caller is authenticated
and has at least one point: the three search strategies, deduplication,
decision logic, stage-3 ensemble validation, the 1-point decrement, the
`productCheck` row, one `checkResult` row, and the final branch on
`confidence === 0` (the zero-false-positives response).  `.error` is an
exception escaping to the enclosing `catch`. -/
def verifySteps (env : Env) (f : Faults) (body : ReqBody) (u : UserRow)
    (db1 : Db) (rc2 : Option RateEntry) :
    Except (Str × Db × Option RateEntry) (Response × Db × Option RateEntry) :=
  let mAlerts := matchingAlertsOf env.store body (ocrEffective f env)
  let r0 := decisionOf mAlerts
  if 10 < r0.confidence ∧ r0.confidence < 70 ∧ f.ensembleThrows then
    .error (databaseErrorMsg, db1, rc2)
  else
    let r := stage3 env.ensemble r0
    if f.decrementThrows then .error (databaseErrorMsg, db1, rc2)
    else
      let db2 := { db1 with user := some ⟨u.pointsBalance - 1⟩ }
      if f.createCheckThrows then .error (databaseErrorMsg, db2, rc2)
      else
        let db3 := { db2 with productChecks := db2.productChecks + 1 }
        if f.createResultThrows then .error (databaseErrorMsg, db3, rc2)
        else
          let db4 := { db3 with checkResults := db3.checkResults + 1 }
          if r.confidence = 0 then .ok (.safeVerdict (u.pointsBalance - 1), db4, rc2)
          else .ok (.verdict r (u.pointsBalance - 1), db4, rc2)

/-- The body of the handler's single enclosing `try`.  `.ok` is a response
rendered by the body itself (including the 400/401/503 responses of the
inner handlers); `.error` is an exception escaping to the enclosing
`catch`, carrying the state at the throw point.  The sequencing follows
the source: rate limit, body validation, auth, user fetch + points check,
missing-info check, then `verifySteps`. -/
def postTry (env : Env) (f : Faults) (rl : Option RateEntry)
    (json : Except Str ReqBody) (session : Option SessionInfo) (db : Db) :
    Except (Str × Db × Option RateEntry) (Response × Db × Option RateEntry) :=
  let rc := checkRateLimit env.now rl
  if rc.1 = false then .ok (.error 429 tooManyRequestsMsg, db, rc.2)
  else
    match json with
    | .error m => .ok (.error 400 m, db, rc.2)
    | .ok body =>
      if f.authThrows then .error (requestTimeoutMsg, db, rc.2)
      else
        match session with
        | none => .ok (.error 401 authRequiredMsg, db, rc.2)
        | some s =>
          if f.userDbThrows then .ok (.error 503 serviceUnavailableMsg, db, rc.2)
          else
            let ud := effectiveUser s db
            match ud.1 with
            | none => .ok (.error 400 insufficientPointsMsg, ud.2, rc.2)
            | some u =>
              if u.pointsBalance < 1 then
                .ok (.error 400 insufficientPointsMsg, ud.2, rc.2)
              else if body.productName = [] ∨ body.productDescription = [] then
                .ok (.error 400 missingInfoMsg, ud.2, rc.2)
              else verifySteps env f body u ud.2 rc.2

/-- The whole handler: the enclosing `catch` maps any escaped exception to
a generic HTTP 500 `'Verification failed'` response. -/
def POSTmodel (env : Env) (f : Faults) (rl : Option RateEntry)
    (json : Except Str ReqBody) (session : Option SessionInfo) (db : Db) :
    Response × Db × Option RateEntry :=
  match postTry env f rl json session db with
  | .ok out => out
  | .error e => (.error 500 verificationFailedMsg, e.2.1, e.2.2)

/-! Concrete sample data used to evaluate the definitions on closed inputs. -/

def alertA : NafdacAlert :=
  { id := 1, title := "fake abcde syrup".data, cleanContent := "x abcde y".data,
    url := "https://nafdac.gov.ng/a1".data, batchNumbers := ["B1".data],
    manufacturer := "acme".data, alertType := "Recall".data,
    severity := "high".data, scrapedAt := 10, active := true }

/-- Same id as `alertA` but a different row (stands for the same record
found again by a later strategy). -/
def alertA' : NafdacAlert :=
  { alertA with title := "fake abcde syrup again".data, scrapedAt := 5 }

def alertB : NafdacAlert :=
  { id := 2, title := "other product".data, cleanContent := "other".data,
    url := "https://nafdac.gov.ng/a2".data, batchNumbers := [],
    manufacturer := "acme".data, alertType := "Alert".data,
    severity := "low".data, scrapedAt := 7, active := true }

def bodyW : ReqBody :=
  { productName := "abcde".data, productDescription := "great".data,
    userBatchNumber := "B1".data, images := [] }

def faultsNone : Faults :=
  { authThrows := false, userDbThrows := false, ocrFails := false,
    ensembleThrows := false, decrementThrows := false,
    createCheckThrows := false, createResultThrows := false }

def envW : Env :=
  { now := 1000, store := [alertA, alertB], ocrText := [],
    ensemble := { confidence := 0, isCounterfeit := false } }

def sessW : SessionInfo := { userId := 7, email := some "u@x.y".data }

def dbW : Db := { user := some ⟨5⟩, productChecks := 0, checkResults := 0 }

/-- A request that matches no alert in `envW`'s store. -/
def bodyN : ReqBody :=
  { productName := "qqqq".data, productDescription := "nothing".data,
    userBatchNumber := [], images := [] }

/-- Fault set where the point-decrement `update` throws. -/
def faultsDecr : Faults := { faultsNone with decrementThrows := true }

/-- A user with an exhausted points balance. -/
def dbPoor : Db := { user := some ⟨0⟩, productChecks := 0, checkResults := 0 }

/-! ## Lemmas about the modelled `findMany` queries -/

theorem findManyAlerts_length_le (store : List NafdacAlert)
    (p : NafdacAlert → Bool) (n : Nat) : (findManyAlerts store p n).length ≤ n := by
  simpa [findManyAlerts, List.length_take] using Nat.min_le_left n _

theorem findManyAlerts_sorted (store : List NafdacAlert)
    (p : NafdacAlert → Bool) (n : Nat) :
    List.Sorted scrapedDesc (findManyAlerts store p n) :=
  (List.sorted_insertionSort scrapedDesc (store.filter p)).sublist
    (List.take_sublist n _)

theorem mem_findManyAlerts {store : List NafdacAlert} {p : NafdacAlert → Bool}
    {n : Nat} {a : NafdacAlert} (h : a ∈ findManyAlerts store p n) :
    p a = true ∧ a ∈ store := by
  have h1 : a ∈ List.insertionSort scrapedDesc (store.filter p) :=
    (List.take_sublist n _).subset h
  have h2 : a ∈ store.filter p :=
    (List.perm_insertionSort scrapedDesc (store.filter p)).mem_iff.mp h1
  exact ⟨(List.mem_filter.mp h2).2, (List.mem_filter.mp h2).1⟩

/-! ## Lemmas about deduplication by id -/

theorem keepIf_congr (l : List NafdacAlert) :
    ∀ s₁ s₂ : List Nat, (∀ x, x ∈ s₁ ↔ x ∈ s₂) → keepIf s₁ l = keepIf s₂ l := by
  induction l with
  | nil => intro s₁ s₂ _; rfl
  | cons a t ih =>
    intro s₁ s₂ h
    simp only [keepIf]
    by_cases hm : a.id ∈ s₁
    · rw [if_pos hm, if_pos ((h a.id).mp hm), ih s₁ s₂ h]
    · rw [if_neg hm, if_neg (fun hc => hm ((h a.id).mpr hc))]
      rw [ih (a.id :: s₁) (a.id :: s₂)
        (fun x => by simp only [List.mem_cons]; exact or_congr Iff.rfl (h x))]

theorem keepIf_append (l₁ : List NafdacAlert) :
    ∀ (l₂ : List NafdacAlert) (seen : List Nat),
      keepIf seen (l₁ ++ l₂) =
        keepIf seen l₁ ++ keepIf (l₁.map NafdacAlert.id ++ seen) l₂ := by
  induction l₁ with
  | nil => intro l₂ seen; rfl
  | cons a t ih =>
    intro l₂ seen
    by_cases hm : a.id ∈ seen
    · have hcg : keepIf (List.map NafdacAlert.id t ++ seen) l₂ =
          keepIf (a.id :: (List.map NafdacAlert.id t ++ seen)) l₂ := by
        apply keepIf_congr
        intro x
        simp only [List.mem_append, List.mem_cons]
        constructor
        · intro h
          exact Or.inr h
        · rintro (rfl | h)
          · exact Or.inr hm
          · exact h
      simp only [List.cons_append, keepIf, List.map_cons, List.append_eq,
        if_pos hm]
      rw [ih l₂ seen, hcg]
    · have hcg : keepIf (List.map NafdacAlert.id t ++ a.id :: seen) l₂ =
          keepIf (a.id :: (List.map NafdacAlert.id t ++ seen)) l₂ := by
        apply keepIf_congr
        intro x
        simp only [List.mem_append, List.mem_cons]
        tauto
      simp only [List.cons_append, keepIf, List.map_cons, List.append_eq,
        if_neg hm]
      rw [ih l₂ (a.id :: seen), hcg]

theorem mem_of_mem_keepIf {x : NafdacAlert} :
    ∀ {l : List NafdacAlert} {seen : List Nat}, x ∈ keepIf seen l → x ∈ l := by
  intro l
  induction l with
  | nil => intro seen h; exact absurd h (by simp [keepIf])
  | cons a t ih =>
    intro seen h
    simp only [keepIf] at h
    by_cases hm : a.id ∈ seen
    · rw [if_pos hm] at h
      exact List.mem_cons_of_mem a (ih h)
    · rw [if_neg hm] at h
      rcases List.mem_cons.mp h with h | h
      · exact h ▸ List.mem_cons_self a t
      · exact List.mem_cons_of_mem a (ih h)

theorem keepIf_id_not_seen {x : NafdacAlert} :
    ∀ {l : List NafdacAlert} {seen : List Nat}, x ∈ keepIf seen l → x.id ∉ seen := by
  intro l
  induction l with
  | nil => intro seen h; exact absurd h (by simp [keepIf])
  | cons a t ih =>
    intro seen h
    simp only [keepIf] at h
    by_cases hm : a.id ∈ seen
    · rw [if_pos hm] at h
      exact ih h
    · rw [if_neg hm] at h
      rcases List.mem_cons.mp h with h | h
      · exact h ▸ hm
      · intro hc
        exact ih h (List.mem_cons_of_mem _ hc)

theorem keepIf_pairwise :
    ∀ (l : List NafdacAlert) (seen : List Nat),
      List.Pairwise (fun a b => a.id ≠ b.id) (keepIf seen l) := by
  intro l
  induction l with
  | nil => intro seen; simp [keepIf]
  | cons a t ih =>
    intro seen
    simp only [keepIf]
    by_cases hm : a.id ∈ seen
    · rw [if_pos hm]; exact ih seen
    · rw [if_neg hm]
      refine List.Pairwise.cons ?_ (ih (a.id :: seen))
      intro b hb hc
      exact keepIf_id_not_seen hb (by simp [hc])

theorem keepIf_sublist :
    ∀ (l : List NafdacAlert) (seen : List Nat), List.Sublist (keepIf seen l) l := by
  intro l
  induction l with
  | nil => intro seen; simp [keepIf]
  | cons a t ih =>
    intro seen
    simp only [keepIf]
    by_cases hm : a.id ∈ seen
    · rw [if_pos hm]
      exact (ih seen).trans (List.sublist_cons_self a t)
    · rw [if_neg hm]
      exact (ih (a.id :: seen)).cons₂ a

theorem keepIf_first_mem {b : NafdacAlert} :
    ∀ (p : List NafdacAlert) (s : List NafdacAlert) (seen : List Nat),
      (∀ y ∈ p, y.id ≠ b.id) → b.id ∉ seen → b ∈ keepIf seen (p ++ b :: s) := by
  intro p
  induction p with
  | nil =>
    intro s seen _ hb
    simp only [List.nil_append, keepIf, if_neg hb]
    exact List.mem_cons_self b _
  | cons c t ih =>
    intro s seen hp hb
    simp only [List.cons_append, keepIf]
    by_cases hm : c.id ∈ seen
    · rw [if_pos hm]
      exact ih s seen (fun y hy => hp y (List.mem_cons_of_mem c hy)) hb
    · rw [if_neg hm]
      refine List.mem_cons_of_mem c (ih s (c.id :: seen)
        (fun y hy => hp y (List.mem_cons_of_mem c hy)) ?_)
      simp only [List.mem_cons]
      push_neg
      exact ⟨fun hc => hp c (List.mem_cons_self c t) hc.symm, hb⟩

theorem keepIf_nil_eq_nil_iff (l : List NafdacAlert) :
    keepIf [] l = [] ↔ l = [] := by
  cases l with
  | nil => simp [keepIf]
  | cons a t => simp [keepIf]

theorem findIdx_append_of_forall_false {α : Type} (p : α → Bool)
    (l₂ : List α) :
    ∀ l₁ : List α, (∀ b ∈ l₁, p b = false) →
      (l₁ ++ l₂).findIdx p = l₁.length + l₂.findIdx p := by
  intro l₁
  induction l₁ with
  | nil => intro _; simp
  | cons c t ih =>
    intro h
    have hc : p c = false := h c (List.mem_cons_self c t)
    have ht := ih (fun b hb => h b (List.mem_cons_of_mem c hb))
    simp only [List.cons_append, List.findIdx_cons, hc, cond_false, ht,
      List.length_cons]
    omega

theorem findIdx_append_lt {α : Type} (p : α → Bool) (l₂ : List α) :
    ∀ l₁ : List α, (∃ b ∈ l₁, p b = true) →
      (l₁ ++ l₂).findIdx p < l₁.length := by
  intro l₁
  induction l₁ with
  | nil => rintro ⟨b, hb, -⟩; exact absurd hb (List.not_mem_nil b)
  | cons c t ih =>
    rintro ⟨b, hb, hpb⟩
    by_cases hc : p c = true
    · simp [List.findIdx_cons, hc]
    · have hcf : p c = false := by
        cases hpc : p c
        · rfl
        · exact absurd hpc hc
      have hbt : b ∈ t := by
        rcases List.mem_cons.mp hb with rfl | hbt
        · exact absurd hpb hc
        · exact hbt
      have := ih ⟨b, hbt, hpb⟩
      simp only [List.cons_append, List.findIdx_cons, hcf, cond_false,
        List.length_cons]
      omega

theorem dedupAux_eq_keepIf :
    ∀ (rest pre : List NafdacAlert),
      dedupAux (pre ++ rest) (List.enumFrom pre.length rest) =
        keepIf (pre.map NafdacAlert.id) rest := by
  intro rest
  induction rest with
  | nil => intro pre; rfl
  | cons a t ih =>
    intro pre
    simp only [List.enumFrom, dedupAux, keepIf]
    by_cases hm : a.id ∈ pre.map NafdacAlert.id
    · obtain ⟨b, hb, hid⟩ := List.mem_map.mp hm
      have hlt : (pre ++ a :: t).findIdx (fun b => b.id == a.id) < pre.length :=
        findIdx_append_lt _ _ _ ⟨b, hb, by simp [hid]⟩
      rw [if_neg (by omega), if_pos hm]
      have h2 := ih (pre ++ [a])
      have hcg : keepIf (List.map NafdacAlert.id (pre ++ [a])) t =
          keepIf (List.map NafdacAlert.id pre) t := by
        apply keepIf_congr
        intro x
        simp only [List.map_append, List.map_cons, List.map_nil,
          List.mem_append, List.mem_cons]
        constructor
        · rintro (h | h)
          · exact h
          · simp only [List.not_mem_nil, or_false] at h
            exact h ▸ hm
        · intro h
          exact Or.inl h
      rw [← hcg, ← h2]
      simp [List.append_assoc]
    · have hall : ∀ b ∈ pre, (fun b : NafdacAlert => b.id == a.id) b = false := by
        intro b hb
        simp only [beq_eq_false_iff_ne]
        intro hc
        exact hm (List.mem_map.mpr ⟨b, hb, hc⟩)
      have heq : (pre ++ a :: t).findIdx (fun b => b.id == a.id) = pre.length := by
        rw [findIdx_append_of_forall_false _ _ _ hall]
        simp [List.findIdx_cons]
      rw [if_pos heq, if_neg hm]
      have h2 := ih (pre ++ [a])
      have hcg : keepIf (List.map NafdacAlert.id (pre ++ [a])) t =
          keepIf (a.id :: List.map NafdacAlert.id pre) t := by
        apply keepIf_congr
        intro x
        simp only [List.map_append, List.map_cons, List.map_nil,
          List.mem_append, List.mem_cons]
        tauto
      rw [← hcg, ← h2]
      simp [List.append_assoc]

theorem dedupById_eq_keepIf (l : List NafdacAlert) :
    dedupById l = keepIf [] l := by
  have h := dedupAux_eq_keepIf l []
  simpa [dedupById, List.enum] using h

theorem matchingAlertsOf_eq (store : List NafdacAlert) (b : ReqBody)
    (ocr : Str) :
    matchingAlertsOf store b ocr =
      (keepIf [] (allMatchesOf store b ocr)).take 10 := by
  rw [matchingAlertsOf, dedupById_eq_keepIf]

theorem matchingAlertsOf_eq_nil_iff (store : List NafdacAlert) (b : ReqBody)
    (ocr : Str) :
    matchingAlertsOf store b ocr = [] ↔ allMatchesOf store b ocr = [] := by
  rw [matchingAlertsOf_eq]
  rw [List.take_eq_nil_iff]
  simp [keepIf_nil_eq_nil_iff]

/-! ## Lemmas about the decision logic -/

theorem decision_confidence_cases (m : List NafdacAlert) :
    (m = [] ∧ (decisionOf m).confidence = 100) ∨
      (m ≠ [] ∧ 75 ≤ (decisionOf m).confidence ∧
        (decisionOf m).confidence ≤ 95) := by
  cases m with
  | nil => exact Or.inl ⟨rfl, rfl⟩
  | cons a t =>
    refine Or.inr ⟨by simp, ?_, ?_⟩ <;> simp only [decisionOf] <;> omega

theorem decision_confidence_ne_zero (m : List NafdacAlert) :
    (decisionOf m).confidence ≠ 0 := by
  rcases decision_confidence_cases m with ⟨-, h⟩ | ⟨-, h, -⟩ <;> omega

theorem decision_not_low (m : List NafdacAlert) :
    ¬(10 < (decisionOf m).confidence ∧ (decisionOf m).confidence < 70) := by
  rcases decision_confidence_cases m with ⟨-, h⟩ | ⟨-, h, -⟩ <;> omega

theorem stage3_decision (ens : EnsembleOut) (m : List NafdacAlert) :
    stage3 ens (decisionOf m) = decisionOf m := by
  unfold stage3
  rw [if_neg (decision_not_low m)]

theorem decision_isCounterfeit_iff (m : List NafdacAlert) :
    (decisionOf m).isCounterfeit = true ↔ m ≠ [] := by
  cases m with
  | nil => simp [decisionOf]
  | cons a t => simp [decisionOf]

/-! ## Characterization of the handler's verification tail -/

theorem verifySteps_cases (env : Env) (f : Faults) (body : ReqBody)
    (u : UserRow) (db1 : Db) (rc2 : Option RateEntry) :
    (∃ d, verifySteps env f body u db1 rc2 =
        .error (databaseErrorMsg, d, rc2)) ∨
    verifySteps env f body u db1 rc2 =
      .ok (.verdict
            (decisionOf (matchingAlertsOf env.store body (ocrEffective f env)))
            (u.pointsBalance - 1),
          { db1 with user := some ⟨u.pointsBalance - 1⟩,
                     productChecks := db1.productChecks + 1,
                     checkResults := db1.checkResults + 1 }, rc2) := by
  unfold verifySteps
  rw [if_neg (fun hc => decision_not_low _ ⟨hc.1, hc.2.1⟩)]
  rw [stage3_decision]
  by_cases h1 : f.decrementThrows
  · rw [if_pos h1]
    exact Or.inl ⟨db1, rfl⟩
  · rw [if_neg h1]
    by_cases h2 : f.createCheckThrows
    · rw [if_pos h2]
      exact Or.inl ⟨_, rfl⟩
    · rw [if_neg h2]
      by_cases h3 : f.createResultThrows
      · rw [if_pos h3]
        exact Or.inl ⟨_, rfl⟩
      · rw [if_neg h3]
        rw [if_neg (decision_confidence_ne_zero _)]
        exact Or.inr rfl

/-- Exhaustive characterization of `postTry`: either an early response with
one of the statuses 429/400/401/503, or an exception escaping to the
enclosing catch, or the general verdict response of a completed
verification. -/
theorem postTry_cases (env : Env) (f : Faults) (rl : Option RateEntry)
    (json : Except Str ReqBody) (session : Option SessionInfo) (db : Db) :
    (∃ st msg d, postTry env f rl json session db =
        .ok (.error st msg, d, (checkRateLimit env.now rl).2) ∧
        (st = 429 ∨ st = 400 ∨ st = 401 ∨ st = 503)) ∨
    (∃ emsg d, postTry env f rl json session db =
        .error (emsg, d, (checkRateLimit env.now rl).2)) ∨
    (∃ body s u, json = .ok body ∧ session = some s ∧
        (effectiveUser s db).1 = some u ∧ ¬(u.pointsBalance < 1) ∧
        postTry env f rl json session db =
          .ok (.verdict
                (decisionOf
                  (matchingAlertsOf env.store body (ocrEffective f env)))
                (u.pointsBalance - 1),
              { (effectiveUser s db).2 with
                  user := some ⟨u.pointsBalance - 1⟩,
                  productChecks := (effectiveUser s db).2.productChecks + 1,
                  checkResults := (effectiveUser s db).2.checkResults + 1 },
              (checkRateLimit env.now rl).2)) := by
  simp only [postTry]
  split
  · exact Or.inl ⟨429, tooManyRequestsMsg, db, rfl, by tauto⟩
  · split
    · next m => exact Or.inl ⟨400, m, db, rfl, by tauto⟩
    · next body =>
      split
      · exact Or.inr (Or.inl ⟨requestTimeoutMsg, db, rfl⟩)
      · split
        · exact Or.inl ⟨401, authRequiredMsg, db, rfl, by tauto⟩
        · next s =>
          split
          · exact Or.inl ⟨503, serviceUnavailableMsg, db, rfl, by tauto⟩
          · split
            · exact Or.inl ⟨400, insufficientPointsMsg, _, rfl, by tauto⟩
            · next u hu =>
              split
              · exact Or.inl ⟨400, insufficientPointsMsg, _, rfl, by tauto⟩
              · next hbal =>
                split
                · exact Or.inl ⟨400, missingInfoMsg, _, rfl, by tauto⟩
                · rcases verifySteps_cases env f body u (effectiveUser s db).2
                      (checkRateLimit env.now rl).2 with ⟨d, hv⟩ | hv
                  · exact Or.inr (Or.inl ⟨databaseErrorMsg, d, hv⟩)
                  · exact Or.inr (Or.inr ⟨body, s, u, rfl, rfl, hu, hbal, hv⟩)

theorem POSTmodel_of_postTry_error (env : Env) (f : Faults)
    (rl : Option RateEntry) (json : Except Str ReqBody)
    (session : Option SessionInfo) (db : Db)
    (e : Str × Db × Option RateEntry)
    (h : postTry env f rl json session db = .error e) :
    POSTmodel env f rl json session db =
      (.error 500 verificationFailedMsg, e.2.1, e.2.2) := by
  simp [POSTmodel, h]

theorem checkRateLimit_false_snd (now : Nat) (e : Option RateEntry)
    (h : (checkRateLimit now e).1 = false) : (checkRateLimit now e).2 = e := by
  cases e with
  | none => simp [checkRateLimit] at h
  | some u =>
    simp only [checkRateLimit] at h ⊢
    by_cases h1 : u.resetTime < now
    · rw [if_pos h1] at h
      simp at h
    · rw [if_neg h1] at h ⊢
      by_cases h2 : RATE_LIMIT_MAX_REQUESTS ≤ u.count
      · rw [if_pos h2]
      · rw [if_neg h2] at h
        simp at h

/-! ## Claim theorems -/

/-- C1: the rendered safety decision is binary with a zero-false-positives
bias: a completed verification response reports `isCounterfeit = true`
exactly when the alert search found at least one matching alert, and
always reports the product legitimate when no alert matched. -/
theorem c1_binary_safety_decision (env : Env) (f : Faults)
    (rl : Option RateEntry) (body : ReqBody) (session : Option SessionInfo)
    (db : Db) (bv : Bool)
    (h : (POSTmodel env f rl (.ok body) session db).1.isCounterfeitOut
          = some bv) :
    bv = true ↔ allMatchesOf env.store body (ocrEffective f env) ≠ [] := by
  rcases postTry_cases env f rl (.ok body) session db with
    ⟨st, msg, d, hp, -⟩ | ⟨emsg, d, hp⟩ | ⟨body', s, u, hjson, -, -, -, hp⟩
  · simp [POSTmodel, hp, Response.isCounterfeitOut] at h
  · simp [POSTmodel, hp, Response.isCounterfeitOut] at h
  · injection hjson with hb
    subst hb
    simp only [POSTmodel, hp, Response.isCounterfeitOut, Option.some_inj] at h
    rw [← h, decision_isCounterfeit_iff]
    exact not_congr (matchingAlertsOf_eq_nil_iff env.store body _)

/-- C5: the confidence attached by the decision logic is either 100 or in
{75, 80, 85, 90, 95}; hence the low-confidence ensemble branch
(`10 < confidence < 70`) and the `confidence === 0` safe-response branch
are unreachable, and every no-match request is answered through the
general match path with `isCounterfeit = false` and `confidence = 100`. -/
theorem c5_unreachable_branches :
    (∀ m : List NafdacAlert, (decisionOf m).confidence = 100 ∨
        (decisionOf m).confidence ∈ [75, 80, 85, 90, 95]) ∧
    (∀ m : List NafdacAlert,
        ¬(10 < (decisionOf m).confidence ∧ (decisionOf m).confidence < 70)) ∧
    (∀ (ens : EnsembleOut) (m : List NafdacAlert),
        stage3 ens (decisionOf m) = decisionOf m) ∧
    (∀ env f rl json session db nb,
        (POSTmodel env f rl json session db).1 ≠ Response.safeVerdict nb) ∧
    (∀ env f rl body session db,
        allMatchesOf env.store body (ocrEffective f env) = [] →
        ∀ bv, (POSTmodel env f rl (.ok body) session db).1.isCounterfeitOut
            = some bv → bv = false) ∧
    (∀ env f rl body session db,
        allMatchesOf env.store body (ocrEffective f env) = [] →
        ∀ cv, (POSTmodel env f rl (.ok body) session db).1.confidenceOut
            = some cv → cv = 100) := by
  refine ⟨?_, decision_not_low, stage3_decision, ?_, ?_, ?_⟩
  · intro m
    cases m with
    | nil => exact Or.inl rfl
    | cons a t =>
      refine Or.inr ?_
      simp only [decisionOf, List.mem_cons, List.not_mem_nil, or_false]
      omega
  · intro env f rl json session db nb hc
    rcases postTry_cases env f rl json session db with
      ⟨st, msg, d, hp, -⟩ | ⟨emsg, d, hp⟩ | ⟨body', s, u, -, -, -, -, hp⟩ <;>
      simp [POSTmodel, hp] at hc
  · intro env f rl body session db hnil bv h
    rcases postTry_cases env f rl (.ok body) session db with
      ⟨st, msg, d, hp, -⟩ | ⟨emsg, d, hp⟩ | ⟨body', s, u, hjson, -, -, -, hp⟩
    · simp [POSTmodel, hp, Response.isCounterfeitOut] at h
    · simp [POSTmodel, hp, Response.isCounterfeitOut] at h
    · injection hjson with hb
      subst hb
      simp only [POSTmodel, hp, Response.isCounterfeitOut,
        Option.some_inj] at h
      rw [← h]
      rw [(matchingAlertsOf_eq_nil_iff env.store body _).mpr hnil]
      rfl
  · intro env f rl body session db hnil cv h
    rcases postTry_cases env f rl (.ok body) session db with
      ⟨st, msg, d, hp, -⟩ | ⟨emsg, d, hp⟩ | ⟨body', s, u, hjson, -, -, -, hp⟩
    · simp [POSTmodel, hp, Response.confidenceOut] at h
    · simp [POSTmodel, hp, Response.confidenceOut] at h
    · injection hjson with hb
      subst hb
      simp only [POSTmodel, hp, Response.confidenceOut,
        Option.some_inj] at h
      rw [← h]
      rw [(matchingAlertsOf_eq_nil_iff env.store body _).mpr hnil]
      rfl

/-- C6: the only failure recovery is the single enclosing catch: any
exception escaping the handler body is answered with HTTP 500 and the
generic `'Verification failed'` message, and an HTTP-500 response arises
in no other way. -/
theorem c6_generic_catch_500 :
    (∀ env f rl json session db e,
        postTry env f rl json session db = .error e →
        POSTmodel env f rl json session db =
          (Response.error 500 verificationFailedMsg, e.2.1, e.2.2)) ∧
    (∀ env f rl json session db m,
        (POSTmodel env f rl json session db).1 = Response.error 500 m →
        m = verificationFailedMsg ∧
          ∃ e, postTry env f rl json session db = .error e) := by
  refine ⟨fun env f rl json session db e h =>
    POSTmodel_of_postTry_error env f rl json session db e h, ?_⟩
  intro env f rl json session db m h
  rcases postTry_cases env f rl json session db with
    ⟨st, msg, d, hp, hst⟩ | ⟨emsg, d, hp⟩ | ⟨body', s, u, -, -, -, -, hp⟩
  · rw [POSTmodel, hp] at h
    simp only [Response.error.injEq] at h
    obtain ⟨h1, -⟩ := h
    omega
  · rw [POSTmodel, hp] at h
    simp only [Response.error.injEq] at h
    exact ⟨h.2.symm, _, hp⟩
  · rw [POSTmodel, hp] at h
    simp at h

/-- C9: every verification costs exactly one point: a user whose balance
is below 1 is rejected with HTTP 400 `'Insufficient points'` and no state
change, and every request that reaches a verification response decrements
the balance by exactly 1 and reports `newBalance` as the pre-request
balance minus 1. -/
theorem c9_one_point_per_verification :
    (∀ env f rl body s db (u : UserRow),
        (checkRateLimit env.now rl).1 = true → f.authThrows = false →
        f.userDbThrows = false → db.user = some u → u.pointsBalance < 1 →
        POSTmodel env f rl (.ok body) (some s) db =
          (Response.error 400 insufficientPointsMsg, db,
            (checkRateLimit env.now rl).2)) ∧
    (∀ env f rl json session db nb,
        (POSTmodel env f rl json session db).1.newBalanceOut = some nb →
        ∃ s u, session = some s ∧ (effectiveUser s db).1 = some u ∧
          1 ≤ u.pointsBalance ∧ nb = u.pointsBalance - 1 ∧
          (POSTmodel env f rl json session db).2.1.user =
            some ⟨u.pointsBalance - 1⟩) := by
  constructor
  · intro env f rl body s db u hok hauth hdb huser hbal
    have hne : ¬((checkRateLimit env.now rl).1 = false) := by simp [hok]
    simp [POSTmodel, postTry, hne, hauth, hdb, effectiveUser, huser, hbal]
  · intro env f rl json session db nb h
    rcases postTry_cases env f rl json session db with
      ⟨st, msg, d, hp, -⟩ | ⟨emsg, d, hp⟩ |
      ⟨body', s, u, hjson, hsess, hu, hbal, hp⟩
    · simp [POSTmodel, hp, Response.newBalanceOut] at h
    · simp [POSTmodel, hp, Response.newBalanceOut] at h
    · refine ⟨s, u, hsess, hu, by omega, ?_, ?_⟩
      · simp only [POSTmodel, hp, Response.newBalanceOut,
          Option.some_inj] at h
        omega
      · simp [POSTmodel, hp]

/-- C3: the confidence score is linear in the number `n` of unique
matching alerts: `min 95 (70 + 5 n)` when `n ≥ 1` — hence exactly one of
75, 80, 85, 90, 95 — and 100 when `n = 0`. -/
theorem c3_confidence_linear_formula :
    (∀ m : List NafdacAlert, m ≠ [] →
        (decisionOf m).confidence = min 95 (70 + 5 * m.length)) ∧
    ((decisionOf ([] : List NafdacAlert)).confidence = 100) ∧
    (∀ m : List NafdacAlert, m ≠ [] →
        (decisionOf m).confidence ∈ [75, 80, 85, 90, 95]) ∧
    (∀ v ∈ [75, 80, 85, 90, 95], ∃ m : List NafdacAlert, m ≠ [] ∧
        (decisionOf m).confidence = v) := by
  refine ⟨?_, rfl, ?_, ?_⟩
  · intro m hm
    cases m with
    | nil => exact absurd rfl hm
    | cons a t =>
      simp only [decisionOf, List.length_cons]
      omega
  · intro m hm
    cases m with
    | nil => exact absurd rfl hm
    | cons a t =>
      simp only [decisionOf, List.mem_cons, List.not_mem_nil, or_false]
      omega
  · intro v hv
    simp only [List.mem_cons, List.not_mem_nil, or_false] at hv
    rcases hv with rfl | rfl | rfl | rfl | rfl
    · exact ⟨[alertA], by simp, by decide⟩
    · exact ⟨[alertA, alertA], by simp, by decide⟩
    · exact ⟨[alertA, alertA, alertA], by simp, by decide⟩
    · exact ⟨[alertA, alertA, alertA, alertA], by simp, by decide⟩
    · exact ⟨[alertA, alertA, alertA, alertA, alertA], by simp, by decide⟩

/-- C4: deduplication keeps exactly the first occurrence of each id, in
order, then truncates to at most 10 alerts: the filter equals the
reference first-occurrence filter, its output has pairwise distinct ids,
is a sublist of the concatenated input (so order is preserved and every
element occurs in the input), has length at most 10 after the slice, and
the first occurrence of an id is always kept by the filter. -/
theorem c4_dedup_first_occurrence :
    (∀ store b ocr, matchingAlertsOf store b ocr
        = (keepIf [] (allMatchesOf store b ocr)).take 10) ∧
    (∀ l : List NafdacAlert, dedupById l = keepIf [] l) ∧
    (∀ l : List NafdacAlert,
        List.Pairwise (fun a b => a.id ≠ b.id) ((dedupById l).take 10)) ∧
    (∀ (l : List NafdacAlert) (x : NafdacAlert),
        x ∈ (dedupById l).take 10 → x ∈ l) ∧
    (∀ l : List NafdacAlert, ((dedupById l).take 10).length ≤ 10) ∧
    (∀ l : List NafdacAlert, List.Sublist ((dedupById l).take 10) l) ∧
    (∀ (p s : List NafdacAlert) (x : NafdacAlert),
        (∀ y ∈ p, y.id ≠ x.id) → x ∈ dedupById (p ++ x :: s)) := by
  have hsub : ∀ l : List NafdacAlert, List.Sublist ((dedupById l).take 10) l :=
    fun l => (List.take_sublist 10 _).trans
      (dedupById_eq_keepIf l ▸ keepIf_sublist l [])
  refine ⟨matchingAlertsOf_eq, dedupById_eq_keepIf, ?_, ?_, ?_, hsub, ?_⟩
  · intro l
    rw [dedupById_eq_keepIf]
    exact (keepIf_pairwise l []).sublist (List.take_sublist 10 _)
  · intro l x hx
    exact (hsub l).subset hx
  · intro l
    simpa [List.length_take] using Nat.min_le_left 10 (dedupById l).length
  · intro p s x hp
    rw [dedupById_eq_keepIf]
    exact keepIf_first_mem p s [] hp (List.not_mem_nil x.id)

theorem runRateLimit_window_bound :
    ∀ (ts : List Nat) (u : RateEntry), (∀ t ∈ ts, t ≤ u.resetTime) →
      u.count ≤ 10 →
      (runRateLimit (some u) ts).1.count true + u.count ≤ 10 := by
  intro ts
  induction ts with
  | nil =>
    intro u _ hc
    simpa [runRateLimit] using hc
  | cons t ts ih =>
    intro u hts hc
    have ht : t ≤ u.resetTime := hts t (List.mem_cons_self t ts)
    have hts' : ∀ x ∈ ts, x ≤ u.resetTime :=
      fun x hx => hts x (List.mem_cons_of_mem t hx)
    simp only [runRateLimit, checkRateLimit]
    rw [if_neg (by omega)]
    by_cases hfull : RATE_LIMIT_MAX_REQUESTS ≤ u.count
    · rw [if_pos hfull]
      have h2 := ih u hts' hc
      simp only [List.count_cons_of_ne (by decide : (true : Bool) ≠ false)]
      omega
    · rw [if_neg hfull]
      have hfull' : u.count < 10 := by
        simpa [RATE_LIMIT_MAX_REQUESTS] using hfull
      have h2 : (runRateLimit (some ⟨u.count + 1, u.resetTime⟩) ts).1.count true
          + (u.count + 1) ≤ 10 :=
        ih ⟨u.count + 1, u.resetTime⟩ hts' (by show u.count + 1 ≤ 10; omega)
      simp only [List.count_cons_self]
      omega

/-- C8: per-IP rate limiting: the stored counter never exceeds 10; a
request arriving when the counter is full inside the window is answered
with HTTP 429 and leaves the counter unchanged; the first request after
`resetTime` starts a fresh window with count 1; a request inside the
window below the cap increments the counter; and along any sequence of
in-window requests at most `10 - count` further requests are accepted. -/
theorem c8_rate_limiting :
    (∀ (now : Nat) (e : Option RateEntry) (u' : RateEntry),
        (∀ u, e = some u → u.count ≤ 10) →
        (checkRateLimit now e).2 = some u' → u'.count ≤ 10) ∧
    (∀ (now : Nat) (u : RateEntry), now ≤ u.resetTime → 10 ≤ u.count →
        checkRateLimit now (some u) = (false, some u)) ∧
    (∀ (now : Nat) (u : RateEntry), u.resetTime < now →
        checkRateLimit now (some u) =
          (true, some ⟨1, now + RATE_LIMIT_WINDOW⟩)) ∧
    (∀ now : Nat, checkRateLimit now none =
        (true, some ⟨1, now + RATE_LIMIT_WINDOW⟩)) ∧
    (∀ (now : Nat) (u : RateEntry), now ≤ u.resetTime → u.count < 10 →
        checkRateLimit now (some u) = (true, some ⟨u.count + 1, u.resetTime⟩)) ∧
    (∀ (ts : List Nat) (u : RateEntry), (∀ t ∈ ts, t ≤ u.resetTime) →
        u.count ≤ 10 →
        (runRateLimit (some u) ts).1.count true + u.count ≤ 10) ∧
    (∀ env f rl json session db,
        (checkRateLimit env.now rl).1 = false →
        POSTmodel env f rl json session db =
          (Response.error 429 tooManyRequestsMsg, db, rl)) := by
  refine ⟨?_, ?_, ?_, fun now => rfl, ?_, runRateLimit_window_bound, ?_⟩
  · intro now e u' hinv h
    cases e with
    | none =>
      simp only [checkRateLimit, Option.some_inj] at h
      rw [← h]
      show 1 ≤ 10
      omega
    | some u =>
      have hu := hinv u rfl
      simp only [checkRateLimit] at h
      by_cases h1 : u.resetTime < now
      · rw [if_pos h1] at h
        simp only [Option.some_inj] at h
        rw [← h]
        show 1 ≤ 10
        omega
      · rw [if_neg h1] at h
        by_cases h2 : RATE_LIMIT_MAX_REQUESTS ≤ u.count
        · rw [if_pos h2] at h
          simp only [Option.some_inj] at h
          rw [← h]
          exact hu
        · rw [if_neg h2] at h
          simp only [Option.some_inj] at h
          rw [← h]
          show u.count + 1 ≤ 10
          simp only [RATE_LIMIT_MAX_REQUESTS] at h2
          omega
  · intro now u h1 h2
    simp only [checkRateLimit]
    rw [if_neg (by omega), if_pos (by simpa [RATE_LIMIT_MAX_REQUESTS] using h2)]
  · intro now u h1
    simp only [checkRateLimit]
    rw [if_pos h1]
  · intro now u h1 h2
    have h2' : ¬ RATE_LIMIT_MAX_REQUESTS ≤ u.count := by
      simp only [RATE_LIMIT_MAX_REQUESTS]
      omega
    simp only [checkRateLimit]
    rw [if_neg (by omega), if_neg h2']
  · intro env f rl json session db h
    have h2 := checkRateLimit_false_snd env.now rl h
    simp [POSTmodel, postTry, h, h2]

/-- C2: the matching engine's three strategies — batch-number
array-containment, then product-name/title substring, then broad content
substring — each return at most 5 records sorted most-recently-scraped
first; the concatenation order batch/product/content is the tie-breaking
order, so a record kept by deduplication comes from the earliest strategy
that found its id. -/
theorem c2_strategy_order_and_precedence :
    ∀ (store : List NafdacAlert) (b : ReqBody) (ocr : Str),
      allMatchesOf store b ocr =
        batchMatchesOf store b.userBatchNumber ++
          productMatchesOf store b.productName ++
          contentMatchesOf store
            (searchTextOf b.productName b.productDescription
              b.userBatchNumber ocr) ∧
      (batchMatchesOf store b.userBatchNumber).length ≤ 5 ∧
      (productMatchesOf store b.productName).length ≤ 5 ∧
      (contentMatchesOf store
        (searchTextOf b.productName b.productDescription
          b.userBatchNumber ocr)).length ≤ 5 ∧
      List.Sorted scrapedDesc (batchMatchesOf store b.userBatchNumber) ∧
      List.Sorted scrapedDesc (productMatchesOf store b.productName) ∧
      List.Sorted scrapedDesc (contentMatchesOf store
        (searchTextOf b.productName b.productDescription
          b.userBatchNumber ocr)) ∧
      (∀ x ∈ matchingAlertsOf store b ocr,
        x ∈ batchMatchesOf store b.userBatchNumber ∨
        (x ∈ productMatchesOf store b.productName ∧
          ∀ y ∈ batchMatchesOf store b.userBatchNumber, y.id ≠ x.id) ∨
        (x ∈ contentMatchesOf store
            (searchTextOf b.productName b.productDescription
              b.userBatchNumber ocr) ∧
          (∀ y ∈ batchMatchesOf store b.userBatchNumber, y.id ≠ x.id) ∧
          (∀ y ∈ productMatchesOf store b.productName, y.id ≠ x.id))) := by
  intro store b ocr
  have hlen : ∀ (l : List NafdacAlert) (p : NafdacAlert → Bool) (c : Prop)
      [Decidable c],
      (if c then findManyAlerts l p 5 else []).length ≤ 5 := by
    intro l p c hc
    split
    · exact findManyAlerts_length_le l p 5
    · simp
  have hsorted : ∀ (l : List NafdacAlert) (p : NafdacAlert → Bool) (c : Prop)
      [Decidable c],
      List.Sorted scrapedDesc (if c then findManyAlerts l p 5 else []) := by
    intro l p c hc
    split
    · exact findManyAlerts_sorted l p 5
    · simp
  refine ⟨rfl, hlen _ _ _, hlen _ _ _, hlen _ _ _, hsorted _ _ _,
    hsorted _ _ _, hsorted _ _ _, ?_⟩
  intro x hx
  rw [matchingAlertsOf_eq] at hx
  have hx2 : x ∈ keepIf [] (allMatchesOf store b ocr) :=
    (List.take_sublist 10 _).subset hx
  rw [allMatchesOf, List.append_assoc, keepIf_append] at hx2
  rcases List.mem_append.mp hx2 with h1 | h1
  · exact Or.inl (mem_of_mem_keepIf h1)
  · rw [keepIf_append] at h1
    rcases List.mem_append.mp h1 with h2 | h2
    · refine Or.inr (Or.inl ⟨mem_of_mem_keepIf h2, ?_⟩)
      have hni := keepIf_id_not_seen h2
      intro y hy hyid
      exact hni (by
        simp only [List.mem_append]
        exact Or.inl (List.mem_map.mpr ⟨y, hy, hyid⟩))
    · refine Or.inr (Or.inr ⟨mem_of_mem_keepIf h2, ?_, ?_⟩)
      · have hni := keepIf_id_not_seen h2
        intro y hy hyid
        exact hni (by
          simp only [List.mem_append]
          exact Or.inr (Or.inl (List.mem_map.mpr ⟨y, hy, hyid⟩)))
      · have hni := keepIf_id_not_seen h2
        intro y hy hyid
        exact hni (by
          simp only [List.mem_append]
          exact Or.inl (List.mem_map.mpr ⟨y, hy, hyid⟩))

/-! ## Lemmas about the `searchText` construction -/

theorem toLowerStr_append (x y : Str) :
    toLowerStr (x ++ y) = toLowerStr x ++ toLowerStr y :=
  List.map_append Char.toLower x y

theorem toLower_pad1 : toLowerStr pad1 = pad1 := by decide

theorem toLower_pad2 : toLowerStr pad2 = pad2 := by decide

theorem allWs_pad1 : ∀ c ∈ pad1, isWs c = true := by decide

theorem allWs_pad2 : ∀ c ∈ pad2, isWs c = true := by decide

theorem dropWhile_ws_append (s : Str) :
    ∀ pad : Str, (∀ c ∈ pad, isWs c = true) →
      (pad ++ s).dropWhile isWs = s.dropWhile isWs := by
  intro pad
  induction pad with
  | nil => intro _; rfl
  | cons c t ih =>
    intro h
    have hc : isWs c = true := h c (List.mem_cons_self c t)
    rw [List.cons_append, List.dropWhile_cons_of_pos hc]
    exact ih (fun x hx => h x (List.mem_cons_of_mem c hx))

theorem dropWhile_ws_append_right :
    ∀ (s pad : Str), (∀ c ∈ pad, isWs c = true) →
      (s ++ pad).dropWhile isWs =
        if s.dropWhile isWs = [] then [] else s.dropWhile isWs ++ pad := by
  intro s
  induction s with
  | nil =>
    intro pad h
    simp only [List.nil_append, List.dropWhile_nil, if_pos rfl]
    have h2 := dropWhile_ws_append [] pad h
    simpa using h2
  | cons c t ih =>
    intro pad h
    by_cases hc : isWs c = true
    · rw [List.cons_append, List.dropWhile_cons_of_pos hc,
        List.dropWhile_cons_of_pos hc]
      exact ih pad h
    · rw [List.cons_append, List.dropWhile_cons_of_neg hc,
        List.dropWhile_cons_of_neg hc]
      rw [if_neg (by simp)]
      rfl

theorem jsTrim_padded (s padA padB : Str)
    (hA : ∀ c ∈ padA, isWs c = true) (hB : ∀ c ∈ padB, isWs c = true) :
    jsTrim (padA ++ s ++ padB) = jsTrim s := by
  unfold jsTrim
  rw [List.append_assoc, dropWhile_ws_append (s ++ padB) padA hA,
    dropWhile_ws_append_right s padB hB]
  by_cases hnil : s.dropWhile isWs = []
  · rw [if_pos hnil, hnil]
  · rw [if_neg hnil, List.reverse_append,
      dropWhile_ws_append ((s.dropWhile isWs).reverse) padB.reverse
        (fun c hc => hB c (List.mem_reverse.mp hc))]

theorem searchTextOf_eq_trim_lower (pn desc ub ocr : Str) :
    searchTextOf pn desc ub ocr =
      jsTrim (toLowerStr (pn ++ [' '] ++ desc ++ [' '] ++ ub ++ [' '] ++ ocr)) := by
  unfold searchTextOf
  rw [show pad1 ++ pn ++ [' '] ++ desc ++ [' '] ++ ub ++ [' '] ++ ocr ++ pad2
      = pad1 ++ (pn ++ [' '] ++ desc ++ [' '] ++ ub ++ [' '] ++ ocr) ++ pad2 by
    simp [List.append_assoc]]
  rw [toLowerStr_append, toLowerStr_append, toLower_pad1, toLower_pad2]
  exact jsTrim_padded _ pad1 pad2 allWs_pad1 allWs_pad2

/-- C7: `searchText` is the lowercased, trimmed space-separated
concatenation of the four free-text attributes; the broad content
strategy runs only when this combined text is longer than 5 characters,
and every alert it returns has content containing (case-insensitively)
only the first space-separated token of the combined text. -/
theorem c7_combined_search_text :
    ∀ (pn desc ub ocr : Str) (store : List NafdacAlert),
      searchTextOf pn desc ub ocr =
        jsTrim (toLowerStr (pn ++ [' '] ++ desc ++ [' '] ++ ub ++ [' '] ++ ocr)) ∧
      ((searchTextOf pn desc ub ocr).length ≤ 5 →
        contentMatchesOf store (searchTextOf pn desc ub ocr) = []) ∧
      (∀ a ∈ contentMatchesOf store (searchTextOf pn desc ub ocr),
        a.active = true ∧
        strContains (toLowerStr a.cleanContent)
          (toLowerStr (toLowerStr
            (firstSpaceToken (searchTextOf pn desc ub ocr)))) = true) := by
  intro pn desc ub ocr store
  refine ⟨searchTextOf_eq_trim_lower pn desc ub ocr, ?_, ?_⟩
  · intro hle
    unfold contentMatchesOf
    rw [if_neg]
    rintro ⟨-, hgt⟩
    omega
  · intro a ha
    unfold contentMatchesOf at ha
    by_cases hg : searchTextOf pn desc ub ocr ≠ [] ∧
        5 < (searchTextOf pn desc ub ocr).length
    · rw [if_pos hg] at ha
      have hpred := (mem_findManyAlerts ha).1
      unfold contentPred at hpred
      simpa [Bool.and_eq_true] using hpred
    · rw [if_neg hg] at ha
      exact absurd ha (List.not_mem_nil a)

/-! ## Concrete witnesses -/

theorem c1_binary_safety_decision_witness :
    (POSTmodel envW faultsNone none (.ok bodyW)
        (some sessW) dbW).1.isCounterfeitOut = some true ∧
    (true = true ↔ allMatchesOf envW.store bodyW
        (ocrEffective faultsNone envW) ≠ []) :=
  ⟨by decide, c1_binary_safety_decision envW faultsNone none bodyW
    (some sessW) dbW true (by decide)⟩

theorem c2_strategy_order_and_precedence_witness :
    alertA ∈ matchingAlertsOf [alertA, alertB] bodyW [] ∧
    (alertA ∈ batchMatchesOf [alertA, alertB] bodyW.userBatchNumber ∨
      (alertA ∈ productMatchesOf [alertA, alertB] bodyW.productName ∧
        ∀ y ∈ batchMatchesOf [alertA, alertB] bodyW.userBatchNumber,
          y.id ≠ alertA.id) ∨
      (alertA ∈ contentMatchesOf [alertA, alertB]
          (searchTextOf bodyW.productName bodyW.productDescription
            bodyW.userBatchNumber []) ∧
        (∀ y ∈ batchMatchesOf [alertA, alertB] bodyW.userBatchNumber,
          y.id ≠ alertA.id) ∧
        (∀ y ∈ productMatchesOf [alertA, alertB] bodyW.productName,
          y.id ≠ alertA.id))) :=
  ⟨by decide,
    (c2_strategy_order_and_precedence [alertA, alertB] bodyW []).2.2.2.2.2.2.2
      alertA (by decide)⟩

theorem c3_confidence_linear_formula_witness :
    ([alertA] : List NafdacAlert) ≠ [] ∧
    (decisionOf [alertA]).confidence = min 95 (70 + 5 * [alertA].length) ∧
    (decisionOf [alertA]).confidence ∈ [75, 80, 85, 90, 95] :=
  ⟨by decide, c3_confidence_linear_formula.1 [alertA] (by decide),
    c3_confidence_linear_formula.2.2.1 [alertA] (by decide)⟩

theorem c4_dedup_first_occurrence_witness :
    alertA ∈ (dedupById [alertA, alertA', alertB]).take 10 ∧
    alertA ∈ [alertA, alertA', alertB] ∧
    alertB ∈ dedupById ([alertA] ++ alertB :: []) :=
  ⟨by decide,
    c4_dedup_first_occurrence.2.2.2.1 [alertA, alertA', alertB] alertA
      (by decide),
    c4_dedup_first_occurrence.2.2.2.2.2.2 [alertA] [] alertB (by decide)⟩

theorem c5_unreachable_branches_witness :
    allMatchesOf envW.store bodyN (ocrEffective faultsNone envW) = [] ∧
    (POSTmodel envW faultsNone none (.ok bodyN)
        (some sessW) dbW).1.isCounterfeitOut = some false ∧
    (POSTmodel envW faultsNone none (.ok bodyN)
        (some sessW) dbW).1.confidenceOut = some 100 ∧
    false = false ∧ (100 : Nat) = 100 :=
  ⟨by decide, by decide, by decide,
    c5_unreachable_branches.2.2.2.2.1 envW faultsNone none bodyN (some sessW)
      dbW (by decide) false (by decide),
    c5_unreachable_branches.2.2.2.2.2 envW faultsNone none bodyN (some sessW)
      dbW (by decide) 100 (by decide)⟩

theorem c6_generic_catch_500_witness :
    postTry envW faultsDecr none (.ok bodyW) (some sessW) dbW =
      .error (databaseErrorMsg, dbW, some ⟨1, 1000 + RATE_LIMIT_WINDOW⟩) ∧
    POSTmodel envW faultsDecr none (.ok bodyW) (some sessW) dbW =
      (Response.error 500 verificationFailedMsg, dbW,
        some ⟨1, 1000 + RATE_LIMIT_WINDOW⟩) :=
  ⟨by rfl,
    c6_generic_catch_500.1 envW faultsDecr none (.ok bodyW) (some sessW) dbW
      (databaseErrorMsg, dbW, some ⟨1, 1000 + RATE_LIMIT_WINDOW⟩) (by rfl)⟩

theorem c7_combined_search_text_witness :
    contentMatchesOf [alertA]
      (searchTextOf "ab".data [] [] []) = [] ∧
    (alertA.active = true ∧
      strContains (toLowerStr alertA.cleanContent)
        (toLowerStr (toLowerStr (firstSpaceToken
          (searchTextOf "abcde".data "great".data [] [])))) = true) :=
  ⟨(c7_combined_search_text "ab".data [] [] [] [alertA]).2.1 (by decide),
    (c7_combined_search_text "abcde".data "great".data [] [] [alertA]).2.2
      alertA (by decide)⟩

theorem c8_rate_limiting_witness :
    checkRateLimit 500 (some ⟨10, 1000⟩) = (false, some ⟨10, 1000⟩) ∧
    checkRateLimit 2000 (some ⟨10, 1000⟩) =
      (true, some ⟨1, 2000 + RATE_LIMIT_WINDOW⟩) ∧
    checkRateLimit 500 (some ⟨3, 1000⟩) = (true, some ⟨4, 1000⟩) ∧
    (runRateLimit (some ⟨1, 1000⟩)
        [10, 20, 30, 40, 50, 60, 70, 80, 90, 100, 110]).1.count true + 1 ≤ 10 ∧
    POSTmodel { envW with now := 500 } faultsNone (some ⟨10, 1000⟩)
        (.ok bodyW) (some sessW) dbW =
      (Response.error 429 tooManyRequestsMsg, dbW, some ⟨10, 1000⟩) :=
  ⟨c8_rate_limiting.2.1 500 ⟨10, 1000⟩ (by decide) (by decide),
    c8_rate_limiting.2.2.1 2000 ⟨10, 1000⟩ (by decide),
    c8_rate_limiting.2.2.2.2.1 500 ⟨3, 1000⟩ (by decide) (by decide),
    c8_rate_limiting.2.2.2.2.2.1 [10, 20, 30, 40, 50, 60, 70, 80, 90, 100, 110]
      ⟨1, 1000⟩ (by decide) (by decide),
    c8_rate_limiting.2.2.2.2.2.2 { envW with now := 500 } faultsNone
      (some ⟨10, 1000⟩) (.ok bodyW) (some sessW) dbW (by decide)⟩

theorem c9_one_point_per_verification_witness :
    POSTmodel envW faultsNone none (.ok bodyW) (some sessW) dbPoor =
      (Response.error 400 insufficientPointsMsg, dbPoor,
        some ⟨1, 1000 + RATE_LIMIT_WINDOW⟩) ∧
    (∃ s u, some sessW = some s ∧ (effectiveUser s dbW).1 = some u ∧
      1 ≤ u.pointsBalance ∧ (4 : Int) = u.pointsBalance - 1 ∧
      (POSTmodel envW faultsNone none (.ok bodyW)
        (some sessW) dbW).2.1.user = some ⟨u.pointsBalance - 1⟩) :=
  ⟨c9_one_point_per_verification.1 envW faultsNone none bodyW sessW dbPoor
      ⟨0⟩ (by decide) rfl rfl rfl (by decide),
    c9_one_point_per_verification.2 envW faultsNone none (.ok bodyW)
      (some sessW) dbW 4 (by decide)⟩

end FakeDetector
